import Mathlib

/-!
Verification development for the suppaftp-client crate: a shallow Lean
embedding of its MLST/MLSD fact-line parsing (src/mlst.rs), its data
model (src/types.rs), and the session controller's reconnect-and-retry
and listing logic (src/client.rs), together with theorems settling the
specification claims about that code.

Strings from the Rust source are modelled as `List Char`; machine
integers as `Nat` with explicit bounds where the Rust parse functions
enforce them; fallible Rust functions return `Except`/`Option`; the
panicking chrono constructors used by the source are modelled by an
explicit `panicked` outcome.
-/

/-- Rust `char::to_ascii_lowercase`: maps `A`..`Z` to lowercase, leaves
every other character unchanged. -/
def toAsciiLowercase (c : Char) : Char :=
  if 'A' ≤ c ∧ c ≤ 'Z' then Char.ofNat (c.toNat + 32) else c

/-- Rust `char::is_ascii_digit`. -/
def isAsciiDigit (c : Char) : Bool :=
  '0' ≤ c ∧ c ≤ '9'

/-- Digit of `c` in base `radix` (for radix ≤ 10 only ASCII digits qualify,
which is all the source uses: base 10 and base 8). -/
def isRadixDigit (radix : Nat) (c : Char) : Bool :=
  isAsciiDigit c ∧ c.toNat - 48 < radix

/-- Numeric value of a digit string in base `radix`. -/
def radixVal (radix : Nat) (l : List Char) : Nat :=
  l.foldl (fun a c => a * radix + (c.toNat - 48)) 0

/-- Rust `str::parse::<uN>` / `uN::from_str_radix`: an optional leading
`+`, then a non-empty run of digits of the base, rejecting values that
overflow the integer type (`bound` = 2^N). -/
def parseUnsignedRadix (radix bound : Nat) (s : List Char) : Option Nat :=
  let digits := match s with
    | '+' :: r => r
    | _ => s
  if digits ≠ [] ∧ digits.all (isRadixDigit radix) then
    let v := radixVal radix digits
    if v < bound then some v else none
  else none

deriving instance DecidableEq for Except

/-- `suppaftp::list::ParseError` (the variants this crate produces). -/
inductive ParseError
  | SyntaxError
  | InvalidDate
  | BadSize
  deriving DecidableEq

/-- `FtpItemType` from src/types.rs. -/
inductive FtpItemType
  | File
  | Dir
  | CurrentDir
  | ParentDir
  deriving DecidableEq

/-- `FtpItemType::is_dir` from src/types.rs: `*self != Self::File`. -/
def FtpItemType.is_dir (t : FtpItemType) : Bool :=
  t ≠ FtpItemType.File

/-- `impl TryFrom<&str> for FtpItemType` from src/types.rs: lowercase the
string, then match `file`/`cdir`/`pdir`/`dir`. -/
def FtpItemType.try_from (ty : List Char) : Except ParseError FtpItemType :=
  let l := ty.map toAsciiLowercase
  if l = "file".toList then .ok .File
  else if l = "cdir".toList then .ok .CurrentDir
  else if l = "pdir".toList then .ok .ParentDir
  else if l = "dir".toList then .ok .Dir
  else .error .SyntaxError

/-- `MlstFilePermissions` from src/mlst.rs: ten independent booleans,
`Default` = all false (expressed by the field defaults). -/
structure MlstFilePermissions where
  append : Bool := false
  create : Bool := false
  delete : Bool := false
  enter : Bool := false
  rename : Bool := false
  list : Bool := false
  mkdir : Bool := false
  purge : Bool := false
  read : Bool := false
  write : Bool := false
  deriving DecidableEq

/-- The character loop of `impl TryFrom<&str> for MlstFilePermissions`
(src/mlst.rs): each recognized lower-cased letter sets one boolean, any
other character aborts with `SyntaxError`. -/
def MlstFilePermissions.tryFromChars :
    List Char → MlstFilePermissions → Except ParseError MlstFilePermissions
  | [], p => .ok p
  | c :: rest, p =>
    let lc := toAsciiLowercase c
    if lc = 'a' then tryFromChars rest { p with append := true }
    else if lc = 'c' then tryFromChars rest { p with create := true }
    else if lc = 'd' then tryFromChars rest { p with delete := true }
    else if lc = 'e' then tryFromChars rest { p with enter := true }
    else if lc = 'f' then tryFromChars rest { p with rename := true }
    else if lc = 'l' then tryFromChars rest { p with list := true }
    else if lc = 'm' then tryFromChars rest { p with mkdir := true }
    else if lc = 'p' then tryFromChars rest { p with purge := true }
    else if lc = 'r' then tryFromChars rest { p with read := true }
    else if lc = 'w' then tryFromChars rest { p with write := true }
    else .error .SyntaxError

/-- `impl TryFrom<&str> for MlstFilePermissions` from src/mlst.rs. -/
def MlstFilePermissions.try_from (s : List Char) :
    Except ParseError MlstFilePermissions :=
  MlstFilePermissions.tryFromChars s {}

/-- `MlstFilePermissions::as_pex` from src/mlst.rs. -/
def MlstFilePermissions.as_pex (p : MlstFilePermissions) : Nat :=
  (if p.read then 4 else 0) + (if p.write then 2 else 0) +
    (if p.list then 1 else 0)

/-- The calendar datetime produced by the date decoder (chrono
`NaiveDateTime` restricted to the fields the source constructs). -/
structure NaiveDateTime where
  year : Int
  month : Nat
  day : Nat
  hour : Nat
  minute : Nat
  second : Nat
  milli : Nat
  deriving DecidableEq

/-- chrono leap-year rule (proleptic Gregorian). -/
def isLeapYear (y : Int) : Bool :=
  y % 4 == 0 && (y % 100 != 0 || y % 400 == 0)

/-- Days in a month of the proleptic Gregorian calendar. -/
def daysInMonth (y : Int) (m : Nat) : Nat :=
  if m = 1 then 31
  else if m = 2 then (if isLeapYear y then 29 else 28)
  else if m = 3 then 31
  else if m = 4 then 30
  else if m = 5 then 31
  else if m = 6 then 30
  else if m = 7 then 31
  else if m = 8 then 31
  else if m = 9 then 30
  else if m = 10 then 31
  else if m = 11 then 30
  else 31

/-- Validity condition of chrono `NaiveDate::from_ymd_opt` (4-digit years
are always inside chrono's supported year range, so no range check is
needed here). -/
def fromYmdValid (y : Int) (m d : Nat) : Bool :=
  1 ≤ m && m ≤ 12 && 1 ≤ d && d ≤ daysInMonth y m

/-- Validity condition of chrono `NaiveTime::from_hms_opt`. -/
def fromHmsValid (h mi s : Nat) : Bool :=
  h < 24 && mi < 60 && s < 60

/-- Validity condition of chrono `NaiveTime::from_hms_milli_opt`
(milliseconds 1000..1999 encode a leap second and are accepted). -/
def fromHmsMilliValid (h mi s ms : Nat) : Bool :=
  h < 24 && mi < 60 && s < 60 && ms < 2000

/-- Outcome of the date decoder: a datetime, a normal "not a valid date"
failure (`Option::None` in the source), or a Rust panic. The source calls
the panicking chrono constructors `NaiveDate::from_ymd`,
`NaiveTime::from_hms` and `NaiveTime::from_hms_milli`, which abort the
process on invalid calendar values, so that outcome is modelled
explicitly. -/
inductive DateResult
  | ok (dt : NaiveDateTime)
  | invalid
  | panicked
  deriving DecidableEq

/-- `parse_mlst_date` from src/mlst.rs. Length must be 14
(`YYYYMMDDHHMMSS`) or 18 (with `.mmm`); every digit position must hold an
ASCII digit and position 14 of the long form must be `.`; then the fixed
slices are converted (the `str::parse` calls on all-digit slices of ≤ 4
characters cannot fail and are modelled by `radixVal`) and the chrono
constructors are applied: calendar-invalid values panic in the source. -/
def parse_mlst_date (s : List Char) : DateResult :=
  if s.length = 14 ∨ s.length = 18 then
    let has_ms := s.length == 18
    if s.enum.all (fun p =>
        if has_ms && p.1 == 14 then p.2 == '.' else isAsciiDigit p.2) then
      let year : Int := (radixVal 10 (s.take 4) : Nat)
      let month := radixVal 10 ((s.drop 4).take 2)
      let day := radixVal 10 ((s.drop 6).take 2)
      let hour := radixVal 10 ((s.drop 8).take 2)
      let minute := radixVal 10 ((s.drop 10).take 2)
      let second := radixVal 10 ((s.drop 12).take 2)
      if has_ms then
        let ms := radixVal 10 ((s.drop 15).take 3)
        if fromYmdValid year month day && fromHmsMilliValid hour minute second ms then
          .ok ⟨year, month, day, hour, minute, second, ms⟩
        else .panicked
      else
        if fromYmdValid year month day && fromHmsValid hour minute second then
          .ok ⟨year, month, day, hour, minute, second, 0⟩
        else .panicked
    else .invalid
  else .invalid

/-- `MlstFact` from src/mlst.rs (`Ty` is the `type` fact; `Other` carries
the already lower-cased unrecognized fact name). -/
inductive MlstFact
  | Other (name : List Char)
  | Ty
  | Size
  | Modify
  | Create
  | Unique
  | Perm
  | Lang
  | MediaType
  | Charset
  | UnixOwner
  | UnixOwnerName
  | UnixGroup
  | UnixGroupName
  | UnixMode
  deriving DecidableEq

/-- `impl From<&str> for MlstFact` from src/mlst.rs: lower-case the name,
then match it against the closed set of recognized fact names. -/
def MlstFact.from (name : List Char) : MlstFact :=
  let n := name.map toAsciiLowercase
  if n = "size".toList then .Size
  else if n = "modify".toList then .Modify
  else if n = "create".toList then .Create
  else if n = "type".toList then .Ty
  else if n = "unique".toList then .Unique
  else if n = "perm".toList then .Perm
  else if n = "lang".toList then .Lang
  else if n = "media-type".toList then .MediaType
  else if n = "charset".toList then .Charset
  else if n = "unix.owner".toList then .UnixOwner
  else if n = "unix.ownername".toList then .UnixOwnerName
  else if n = "unix.group".toList then .UnixGroup
  else if n = "unix.groupname".toList then .UnixGroupName
  else if n = "unix.mode".toList then .UnixMode
  else .Other n

/-- `std::collections::HashMap::insert`: replace the value of an existing
key, otherwise add the pair (the map is modelled as an association list;
no claim depends on iteration order). -/
def assocInsert (m : List (List Char × List Char)) (k v : List Char) :
    List (List Char × List Char) :=
  match m with
  | [] => [(k, v)]
  | (k', v') :: rest =>
    if k' = k then (k, v) :: rest else (k', v') :: assocInsert rest k v

/-- `HashMap::get` on the association-list model. -/
def assocLookup (k : List Char) :
    List (List Char × List Char) → Option (List Char)
  | [] => none
  | (k', v') :: rest => if k' = k then some v' else assocLookup k rest

/-- `FtpItem` from src/types.rs. -/
structure FtpItem where
  name : List Char
  ty : FtpItemType
  size : Option Nat
  modified : Option NaiveDateTime
  created : Option NaiveDateTime
  unique : Option (List Char)
  perm : Option MlstFilePermissions
  lang : Option (List Char)
  media_type : Option (List Char)
  charset : Option (List Char)
  unix_owner : Option Nat
  unix_ownername : Option (List Char)
  unix_group : Option Nat
  unix_groupname : Option (List Char)
  unix_mode : Option Nat
  others : Option (List (List Char × List Char))
  deriving DecidableEq

/-- The mutable `file_*` locals of `parse_mlst_line` (src/mlst.rs), all
initially `None`. -/
structure MlstAcc where
  ty : Option FtpItemType := none
  size : Option Nat := none
  modify : Option NaiveDateTime := none
  create : Option NaiveDateTime := none
  unique : Option (List Char) := none
  perm : Option MlstFilePermissions := none
  lang : Option (List Char) := none
  media_type : Option (List Char) := none
  charset : Option (List Char) := none
  unix_owner : Option Nat := none
  unix_ownername : Option (List Char) := none
  unix_group : Option Nat := none
  unix_groupname : Option (List Char) := none
  unix_mode : Option Nat := none
  others : Option (List (List Char × List Char)) := none
  deriving DecidableEq

/-- Outcome of a computation that can also hit a Rust panic (reached by
`parse_mlst_line` through the date decoder's chrono constructors). -/
inductive PRes (ε α : Type)
  | ok (a : α)
  | err (e : ε)
  | panicked
  deriving DecidableEq

/-- The per-fact dispatch of `parse_mlst_line` (src/mlst.rs): executed
each time a `;` closes a `name=value` pair, it parses the value according
to the recognized fact kind and overwrites the corresponding local. -/
def dispatchFact (name value : List Char) (acc : MlstAcc) : PRes ParseError MlstAcc :=
  match MlstFact.from name with
  | .Size =>
    match parseUnsignedRadix 10 (2 ^ 64) value with
    | some n => .ok { acc with size := some n }
    | none => .err .BadSize
  | .Modify =>
    match parse_mlst_date value with
    | .ok dt => .ok { acc with modify := some dt }
    | .invalid => .err .InvalidDate
    | .panicked => .panicked
  | .Create =>
    match parse_mlst_date value with
    | .ok dt => .ok { acc with create := some dt }
    | .invalid => .err .InvalidDate
    | .panicked => .panicked
  | .Ty =>
    match FtpItemType.try_from value with
    | .ok t => .ok { acc with ty := some t }
    | .error e => .err e
  | .Unique => .ok { acc with unique := some value }
  | .Perm =>
    match MlstFilePermissions.try_from value with
    | .ok p => .ok { acc with perm := some p }
    | .error e => .err e
  | .Lang => .ok { acc with lang := some value }
  | .MediaType => .ok { acc with media_type := some value }
  | .Charset => .ok { acc with charset := some value }
  | .UnixOwner =>
    match parseUnsignedRadix 10 (2 ^ 32) value with
    | some n => .ok { acc with unix_owner := some n }
    | none => .err .SyntaxError
  | .UnixOwnerName => .ok { acc with unix_ownername := some value }
  | .UnixGroup =>
    match parseUnsignedRadix 10 (2 ^ 32) value with
    | some n => .ok { acc with unix_group := some n }
    | none => .err .SyntaxError
  | .UnixGroupName => .ok { acc with unix_groupname := some value }
  | .UnixMode =>
    match parseUnsignedRadix 8 (2 ^ 16) value with
    | some n => .ok { acc with unix_mode := some n }
    | none => .err .SyntaxError
  | .Other n =>
    .ok { acc with others := some (assocInsert (acc.others.getD []) n value) }

/-- The two states of the character-scanning machine of
`parse_mlst_line`, with their accumulation buffers. -/
inductive ScanState
  | nameSt (buf : List Char)
  | valueSt (nbuf vbuf : List Char)

/-- The `while let Some(ch) = chars.next()` loop of `parse_mlst_line`
(src/mlst.rs). Returns the final locals and the characters left
unconsumed by the loop (the `chars.collect()` filename), or the loop's
early `return Err(..)`, or a panic from a dispatched date fact. -/
def scanFacts : List Char → ScanState → MlstAcc →
    PRes ParseError (MlstAcc × List Char)
  | [], _, acc => .ok (acc, [])
  | c :: rest, .nameSt buf, acc =>
    if c = ' ' then
      if buf = [] then .ok (acc, rest) else .err .SyntaxError
    else if c = ';' then .err .SyntaxError
    else if c = '=' then scanFacts rest (.valueSt buf []) acc
    else scanFacts rest (.nameSt (buf ++ [c])) acc
  | c :: rest, .valueSt nbuf vbuf, acc =>
    if c = ' ' ∨ c = '=' then .err .SyntaxError
    else if c = ';' then
      if nbuf = [] then .err .SyntaxError
      else
        match dispatchFact nbuf vbuf acc with
        | .ok acc' => scanFacts rest (.nameSt []) acc'
        | .err e => .err e
        | .panicked => .panicked
    else scanFacts rest (.valueSt nbuf (vbuf ++ [c])) acc

/-- `parse_mlst_line` from src/mlst.rs: run the scanning machine, then
reject an empty filename, then reject a missing `type` fact, and finally
assemble the `FtpItem`. -/
def parse_mlst_line (line : List Char) : PRes ParseError FtpItem :=
  match scanFacts line (.nameSt []) {} with
  | .ok (acc, rest) =>
    if rest = [] then .err .SyntaxError
    else
      match acc.ty with
      | none => .err .SyntaxError
      | some t =>
        .ok { name := rest, ty := t, size := acc.size, modified := acc.modify,
              created := acc.create, unique := acc.unique, perm := acc.perm,
              lang := acc.lang, media_type := acc.media_type,
              charset := acc.charset, unix_owner := acc.unix_owner,
              unix_ownername := acc.unix_ownername,
              unix_group := acc.unix_group,
              unix_groupname := acc.unix_groupname,
              unix_mode := acc.unix_mode, others := acc.others }
  | .err e => .err e
  | .panicked => .panicked

/-- The collaborator behaviour one logical call of the `ftp!` wrapper
(src/client.rs) can observe: the outcome of its k-th `reconnect()` call,
the outcome of the k-th time the wrapped command is issued, and the
collaborator's `FtpError::is_recoverable` classification. -/
structure FtpOracle (ε α : Type) where
  reconnect : Nat → Except ε Unit
  cmd : Nat → Except ε α
  recoverable : ε → Bool

/-- Observable trace of one execution of the `ftp!` wrapper: its returned
result, how many times `reconnect()` ran, how many of those reconnects
were performed after a command failure, and how many times the command
was issued. -/
structure FtpRun (ε α : Type) where
  result : Except ε α
  reconnectCalls : Nat
  retryReconnects : Nat
  cmdIssues : Nat

/-- The `ftp!` macro from src/client.rs: if `self.ftp` is `None`, set
`already_reconnected` and connect first (propagating a connect failure);
issue the command; on a failure that `is_recoverable()` when not
`already_reconnected`, reconnect (propagating its failure) and issue the
command a second time, returning that second result as is. -/
def ftp_exec (connected : Bool) (o : FtpOracle ε α) : FtpRun ε α :=
  if connected then
    match o.cmd 0 with
    | .ok a => ⟨.ok a, 0, 0, 1⟩
    | .error e =>
      if o.recoverable e then
        match o.reconnect 0 with
        | .error e' => ⟨.error e', 1, 1, 1⟩
        | .ok _ => ⟨o.cmd 1, 1, 1, 2⟩
      else ⟨.error e, 0, 0, 1⟩
  else
    match o.reconnect 0 with
    | .error e => ⟨.error e, 1, 0, 0⟩
    | .ok _ =>
      match o.cmd 0 with
      | .ok a => ⟨.ok a, 1, 0, 1⟩
      | .error e => ⟨.error e, 1, 0, 1⟩

/-- `suppaftp::types::FtpError` as the listing code uses it:
`BadResponse` (the value every parse failure is mapped to) and the
collaborator's connection-level failures, abstracted by a code. -/
inductive FtpError
  | BadResponse
  | ConnectionErr (code : Nat)
  deriving DecidableEq

/-- `FtpList` from src/types.rs (`Default` = two `None`s and an empty
item vector). -/
structure FtpList where
  current : Option FtpItem := none
  parent : Option FtpItem := none
  items : List FtpItem := []
  deriving DecidableEq

/-- The `map(..).try_fold(..)` pipeline of the `list_fn!` macro
(src/client.rs) for the MLSD path: parse each line with
`parse_mlst_line`, mapping any parse error to `FtpError::BadResponse`,
and fold items into the listing fail-fast (the iterator is lazy, so lines
after the first failure are never parsed). -/
def listFoldAux : List (List Char) → FtpList → PRes FtpError FtpList
  | [], acc => .ok acc
  | l :: rest, acc =>
    match parse_mlst_line l with
    | .panicked => .panicked
    | .err _ => .err .BadResponse
    | .ok item =>
      match item.ty with
      | .CurrentDir => listFoldAux rest { acc with current := some item }
      | .ParentDir => listFoldAux rest { acc with parent := some item }
      | _ => listFoldAux rest { acc with items := acc.items ++ [item] }

/-- Observable trace of `FtpClient::list_mlsd`: the result plus the
reconnect counts of the underlying `ftp!` execution. -/
structure ListRun where
  result : PRes FtpError FtpList
  reconnectCalls : Nat
  retryReconnects : Nat
  deriving DecidableEq

/-- `FtpClient::list_mlsd` from src/client.rs: fetch the raw lines via
`ftp!(self, mlsd(None))`, propagating its error, then run the
`list_fn!` fold. -/
def list_mlsd (connected : Bool) (o : FtpOracle FtpError (List (List Char))) :
    ListRun :=
  let run := ftp_exec connected o
  match run.result with
  | .error e => ⟨.err e, run.reconnectCalls, run.retryReconnects⟩
  | .ok lines => ⟨listFoldAux lines {}, run.reconnectCalls, run.retryReconnects⟩

/-- Collaborator outcomes one `FtpClient::reconnect` call can observe:
whether `FtpStream::connect` succeeds, the result of `ftp.feat()`
(already composed with the pure `FtpClientFeatures::from` parse, `none`
meaning the FEAT command failed), and whether the TLS upgrade, `login`
and the optional starting-directory `cwd` succeed. -/
structure ReconnectCall (F : Type) where
  connectOk : Bool
  featResult : Option F
  secureOk : Bool
  loginOk : Bool
  cwdOk : Bool

/-- The fields of `FtpClient` that `reconnect` touches: the optional
connection (`ftp: Option<FtpStream>`, modelled by a presence flag) and
the feature cache (`has_feat`, `features`). -/
structure ClientState (F : Type) where
  ftp : Bool
  has_feat : Bool
  features : F

/-- The tail of `FtpClient::reconnect` after feature negotiation: TLS
upgrade (when configured), `login`, optional starting-directory `cwd`;
any failure returns early with `self.ftp` still `None`, success stores
the connection. Only the `ftp` field changes. -/
def finishConnect (use_secure has_remote_dir : Bool) (c : ReconnectCall F)
    (s2 : ClientState F) : ClientState F :=
  if use_secure && !c.secureOk then s2
  else if !c.loginOk then s2
  else if has_remote_dir && !c.cwdOk then s2
  else { s2 with ftp := true }

/-- `FtpClient::reconnect` from src/client.rs as one transition: drop the
existing connection, connect, issue FEAT only when `!self.has_feat &&
self.settings.use_feat()` (caching the parse and setting `has_feat` on
success), then the `finishConnect` tail, each failure leaving the client
disconnected. Returns the poststate plus whether FEAT was issued and
whether it succeeded. -/
def reconnectStep (use_feat use_secure has_remote_dir : Bool)
    (c : ReconnectCall F) (s : ClientState F) :
    ClientState F × Bool × Bool :=
  let s1 : ClientState F := { s with ftp := false }
  if !c.connectOk then (s1, false, false)
  else if !s1.has_feat && use_feat then
    match c.featResult with
    | none => (s1, true, false)
    | some f =>
      (finishConnect use_secure has_remote_dir c
        { s1 with has_feat := true, features := f }, true, true)
  else (finishConnect use_secure has_remote_dir c s1, false, false)

/-- A whole sequence of `reconnect` transitions of one `FtpClient`
instance, returning the final state, the number of times the FEAT
command was issued, and the number of times it was issued and parsed
successfully. -/
def runReconnects (use_feat use_secure has_remote_dir : Bool) :
    List (ReconnectCall F) → ClientState F → ClientState F × Nat × Nat
  | [], s => (s, 0, 0)
  | c :: rest, s =>
    let step := reconnectStep use_feat use_secure has_remote_dir c s
    let next := runReconnects use_feat use_secure has_remote_dir rest step.1
    (next.1, (if step.2.1 then 1 else 0) + next.2.1,
      (if step.2.2 then 1 else 0) + next.2.2)

/-- `FtpClient::new` from src/client.rs: no connection, no cached
features (`features: Default::default()` is abstracted by the given
initial value). -/
def clientNew (f0 : F) : ClientState F :=
  { ftp := false, has_feat := false, features := f0 }

/-- `suppaftp::list::PosixPexQuery`. -/
inductive PosixPexQuery
  | Owner
  | Group
  | Others
  deriving DecidableEq

/-- Modelled from the spec: the external collaborator type
`suppaftp::list::File` (the Unix long-listing entry, §4.6 of the spec:
"name, is-directory, size, modified time, numeric owner/group, permission
triple"), with the modified time abstracted over the `SystemTime` model
`T`. `from_raw` corresponds to the anonymous constructor. -/
structure ListFile (T : Type) where
  name : List Char
  is_dir : Bool
  size : Nat
  modified : T
  uid : Option Nat
  gid : Option Nat
  pex : Nat × Nat × Nat

/-- The pex component selected by a `PosixPexQuery`. -/
def ListFile.pexOf (f : ListFile T) : PosixPexQuery → Nat
  | .Owner => f.pex.1
  | .Group => f.pex.2.1
  | .Others => f.pex.2.2

/-- Modelled from the spec: `list::File::can_read` tests the 4-bit of the
queried pex component. -/
def ListFile.can_read (f : ListFile T) (q : PosixPexQuery) : Bool :=
  (f.pexOf q) &&& 4 != 0

/-- Modelled from the spec: `list::File::can_write` tests the 2-bit. -/
def ListFile.can_write (f : ListFile T) (q : PosixPexQuery) : Bool :=
  (f.pexOf q) &&& 2 != 0

/-- Modelled from the spec: `list::File::can_execute` tests the 1-bit. -/
def ListFile.can_execute (f : ListFile T) (q : PosixPexQuery) : Bool :=
  (f.pexOf q) &&& 1 != 0

/-- The two local-timezone conversions of src/mlst.rs
(`systemtime_to_naivedatetime` and `naivedatetime_to_systemtime`),
abstracted over the `SystemTime` representation `T`: the source goes
through chrono's `Local` timezone in both directions. -/
structure TimeModel (T : Type) where
  toSys : NaiveDateTime → T
  toNaive : T → NaiveDateTime

/-- `NaiveDateTime::from_timestamp(0, 0)`: the Unix epoch. -/
def epochNaive : NaiveDateTime :=
  ⟨1970, 1, 1, 0, 0, 0, 0⟩

/-- `ftp_to_list` from src/mlst.rs: directory flag from `ty.is_dir()`,
size defaulting to 0, modified defaulting to the epoch, and one pex value
derived from the fact permissions via `as_pex` (0 when absent), passed
for owner, group and others alike. -/
def ftp_to_list (tm : TimeModel T) (file : FtpItem) : ListFile T :=
  let pex := (file.perm.map MlstFilePermissions.as_pex).getD 0
  { name := file.name, is_dir := file.ty.is_dir, size := file.size.getD 0,
    modified := tm.toSys (file.modified.getD epochNaive),
    uid := file.unix_owner, gid := file.unix_group, pex := (pex, pex, pex) }

/-- One 3-bit group of the `mode_bits!` macro (src/mlst.rs):
`can_read << 2 | can_write << 1 | can_execute` for the given query. -/
def ListFile.whoBits (f : ListFile T) (w : PosixPexQuery) : Nat :=
  ((if f.can_read w then 1 else 0) <<< 2) |||
    ((if f.can_write w then 1 else 0) <<< 1) |||
    (if f.can_execute w then 1 else 0)

/-- The full `mode_bits!` macro (src/mlst.rs):
`(Others << 6) | (Group << 3) | Owner`. -/
def ListFile.modeBits (f : ListFile T) : Nat :=
  (f.whoBits .Others <<< 6) ||| (f.whoBits .Group <<< 3) ||| f.whoBits .Owner

/-- `list_to_ftp` from src/mlst.rs. -/
def list_to_ftp (tm : TimeModel T) (f : ListFile T) : FtpItem :=
  let ty :=
    if f.is_dir then
      if f.name = ".".toList then FtpItemType.CurrentDir
      else if f.name = "..".toList then FtpItemType.ParentDir
      else FtpItemType.Dir
    else FtpItemType.File
  { name := f.name, ty := ty, size := some f.size,
    modified := some (tm.toNaive f.modified), created := none,
    unique := none,
    perm := some { read := f.can_read .Owner, write := f.can_write .Owner,
                   list := f.can_execute .Owner },
    lang := none, media_type := none, charset := none, unix_owner := f.uid,
    unix_ownername := none, unix_group := f.gid, unix_groupname := none,
    unix_mode := some f.modeBits, others := none }

/-- Concrete collaborator used to witness the retry theorem: the first
command issue fails recoverably, the reconnect succeeds, the re-issued
command succeeds. -/
def ftpOracleW : FtpOracle Nat Nat :=
  { reconnect := fun _ => .ok ()
    cmd := fun k => if k = 0 then .error 7 else .ok 5
    recoverable := fun _ => true }

/-- A permission-fact character the decoder recognizes: one of the ten
letters, in either case. -/
def validPermChar (c : Char) : Bool :=
  let lc := toAsciiLowercase c
  lc = 'a' ∨ lc = 'c' ∨ lc = 'd' ∨ lc = 'e' ∨ lc = 'f' ∨ lc = 'l' ∨
    lc = 'm' ∨ lc = 'p' ∨ lc = 'r' ∨ lc = 'w'

/-- The permission booleans a letter string switches on, relative to a
starting permission record. -/
def permsFrom (p : MlstFilePermissions) (s : List Char) : MlstFilePermissions :=
  { append := p.append || s.any (fun c => toAsciiLowercase c == 'a')
    create := p.create || s.any (fun c => toAsciiLowercase c == 'c')
    delete := p.delete || s.any (fun c => toAsciiLowercase c == 'd')
    enter := p.enter || s.any (fun c => toAsciiLowercase c == 'e')
    rename := p.rename || s.any (fun c => toAsciiLowercase c == 'f')
    list := p.list || s.any (fun c => toAsciiLowercase c == 'l')
    mkdir := p.mkdir || s.any (fun c => toAsciiLowercase c == 'm')
    purge := p.purge || s.any (fun c => toAsciiLowercase c == 'p')
    read := p.read || s.any (fun c => toAsciiLowercase c == 'r')
    write := p.write || s.any (fun c => toAsciiLowercase c == 'w') }

/-- A collaborator whose MLSD fetch succeeds immediately with the given
lines. -/
def mlsdOracle (lines : List (List Char)) :
    FtpOracle FtpError (List (List Char)) :=
  { reconnect := fun _ => .ok ()
    cmd := fun _ => .ok lines
    recoverable := fun _ => false }

/-- A reconnect call in which the FEAT command itself fails. -/
def featFailCall : ReconnectCall Nat :=
  { connectOk := true, featResult := none, secureOk := true,
    loginOk := true, cwdOk := true }

/-- A reconnect call in which every collaborator step succeeds, FEAT
parsing to the feature value 1. -/
def featOkCall : ReconnectCall Nat :=
  { connectOk := true, featResult := some 1, secureOk := true,
    loginOk := true, cwdOk := true }

/-- The trivial time model used for witnesses: the `SystemTime`
representation is the datetime itself. -/
def tmId : TimeModel NaiveDateTime :=
  { toSys := id, toNaive := id }

/-- A concrete file entry with read/list permissions, a size and a
modified time, used to witness the round-trip theorem. -/
def c8File : FtpItem :=
  { name := "f".toList, ty := .File, size := some 9,
    modified := some ⟨2023, 1, 1, 0, 0, 0, 0⟩, created := none,
    unique := none, perm := some { read := true, list := true },
    lang := none, media_type := none, charset := none, unix_owner := none,
    unix_ownername := none, unix_group := none, unix_groupname := none,
    unix_mode := none, others := none }

/-- Claim C2 (code bug): the date decoder rejects bad lengths and
non-digits normally, but a well-formed digit string with invalid calendar
values reaches chrono's panicking constructor: month 13 panics instead of
returning a decode failure. -/
theorem parse_mlst_date_panics_on_bad_calendar :
    parse_mlst_date ("20231301120000".toList) = .panicked ∧
    parse_mlst_date ("20230101256000".toList) = .panicked ∧
    parse_mlst_date ("20230101120000".toList) = .ok ⟨2023, 1, 1, 12, 0, 0, 0⟩ ∧
    parse_mlst_date ("2023010112000".toList) = .invalid ∧
    parse_mlst_date ("2023010112000a".toList) = .invalid ∧
    parse_mlst_date ("20230101120000-123".toList) = .invalid := by
  decide

/-- Claim C6: parsing the single example line yields exactly the
described file entry, every optional field absent. -/
theorem parse_mlst_line_example :
    parse_mlst_line ("type=file;size=1234;modify=20230101120000; report.txt".toList) =
      .ok { name := "report.txt".toList, ty := .File, size := some 1234,
            modified := some ⟨2023, 1, 1, 12, 0, 0, 0⟩, created := none,
            unique := none, perm := none, lang := none, media_type := none,
            charset := none, unix_owner := none, unix_ownername := none,
            unix_group := none, unix_groupname := none, unix_mode := none,
            others := none } := by
  decide

/-- Claim C1: the `ftp!` wrapper performs at most one
reconnect-after-failure in any execution; starting `Connected`, a
recoverable first failure leads to exactly one reconnect and (when that
reconnect succeeds) exactly one re-issue whose result is returned as is;
starting `Disconnected`, a command failure is returned immediately with
no reconnect-and-retry. -/
theorem ftp_exec_single_retry (ε α : Type) (o : FtpOracle ε α) (e : ε) :
    (∀ c, (ftp_exec c o).retryReconnects ≤ 1) ∧
    (o.cmd 0 = .error e → o.recoverable e = true →
      (ftp_exec true o).reconnectCalls = 1 ∧
      (ftp_exec true o).retryReconnects = 1 ∧
      (o.reconnect 0 = .ok () →
        (ftp_exec true o).cmdIssues = 2 ∧ (ftp_exec true o).result = o.cmd 1) ∧
      (∀ e', o.reconnect 0 = .error e' →
        (ftp_exec true o).cmdIssues = 1 ∧
        (ftp_exec true o).result = .error e')) ∧
    (o.reconnect 0 = .ok () → o.cmd 0 = .error e →
      (ftp_exec false o).result = .error e ∧
      (ftp_exec false o).retryReconnects = 0 ∧
      (ftp_exec false o).cmdIssues = 1) := by
  refine ⟨?_, ?_, ?_⟩
  · intro c
    cases c
    · rcases hr : o.reconnect 0 with e' | u
      · simp [ftp_exec, hr]
      · rcases hc : o.cmd 0 with e' | a <;> simp [ftp_exec, hr, hc]
    · rcases hc : o.cmd 0 with e' | a
      · by_cases hrec : o.recoverable e' = true
        · rcases hr : o.reconnect 0 with e'' | u <;> simp [ftp_exec, hc, hrec, hr]
        · simp [ftp_exec, hc, hrec]
      · simp [ftp_exec, hc]
  · intro hc hrec
    rcases hr : o.reconnect 0 with e' | u <;>
      simp [ftp_exec, hc, hrec, hr]
  · intro hr hc
    simp [ftp_exec, hr, hc]

/-- Witness for claim C1 at the concrete collaborator `ftpOracleW`. -/
theorem ftp_exec_single_retry_witness :
    (ftp_exec true ftpOracleW).reconnectCalls = 1 ∧
    (ftp_exec true ftpOracleW).cmdIssues = 2 ∧
    (ftp_exec true ftpOracleW).result = .ok 5 ∧
    (ftp_exec false ftpOracleW).retryReconnects = 0 := by
  have h := ftp_exec_single_retry Nat Nat ftpOracleW 7
  refine ⟨(h.2.1 rfl rfl).1, ((h.2.1 rfl rfl).2.2.1 rfl).1, ?_, ?_⟩
  · exact (((h.2.1 rfl rfl).2.2.1 rfl).2).trans rfl
  · exact (h.2.2 rfl rfl).2.1

theorem tryFromChars_valid (s : List Char) (p : MlstFilePermissions)
    (h : ∀ c ∈ s, validPermChar c = true) :
    MlstFilePermissions.tryFromChars s p = .ok (permsFrom p s) := by
  induction s generalizing p with
  | nil => simp [MlstFilePermissions.tryFromChars, permsFrom]
  | cons c rest ih =>
    have hc := h c (List.mem_cons_self c rest)
    have hrest : ∀ c ∈ rest, validPermChar c = true :=
      fun x hx => h x (List.mem_cons_of_mem c hx)
    have hcases : toAsciiLowercase c = 'a' ∨ toAsciiLowercase c = 'c' ∨
        toAsciiLowercase c = 'd' ∨ toAsciiLowercase c = 'e' ∨
        toAsciiLowercase c = 'f' ∨ toAsciiLowercase c = 'l' ∨
        toAsciiLowercase c = 'm' ∨ toAsciiLowercase c = 'p' ∨
        toAsciiLowercase c = 'r' ∨ toAsciiLowercase c = 'w' := by
      simpa [validPermChar] using hc
    rcases hcases with h1 | h1 | h1 | h1 | h1 | h1 | h1 | h1 | h1 | h1 <;>
      simp [MlstFilePermissions.tryFromChars, h1, ih _ hrest, permsFrom,
        Bool.or_assoc]

theorem tryFromChars_invalid (s : List Char) (p : MlstFilePermissions)
    (h : ∃ c ∈ s, validPermChar c = false) :
    MlstFilePermissions.tryFromChars s p = .error .SyntaxError := by
  induction s generalizing p with
  | nil => simp at h
  | cons c rest ih =>
    by_cases hc : validPermChar c = true
    · have hcases : toAsciiLowercase c = 'a' ∨ toAsciiLowercase c = 'c' ∨
          toAsciiLowercase c = 'd' ∨ toAsciiLowercase c = 'e' ∨
          toAsciiLowercase c = 'f' ∨ toAsciiLowercase c = 'l' ∨
          toAsciiLowercase c = 'm' ∨ toAsciiLowercase c = 'p' ∨
          toAsciiLowercase c = 'r' ∨ toAsciiLowercase c = 'w' := by
        simpa [validPermChar] using hc
      have hrest : ∃ x ∈ rest, validPermChar x = false := by
        rcases h with ⟨x, hx, hxf⟩
        rcases List.mem_cons.mp hx with rfl | hx'
        · rw [hc] at hxf; cases hxf
        · exact ⟨x, hx', hxf⟩
      rcases hcases with h1 | h1 | h1 | h1 | h1 | h1 | h1 | h1 | h1 | h1 <;>
        simp [MlstFilePermissions.tryFromChars, h1, ih _ hrest]
    · have hnot : ¬(toAsciiLowercase c = 'a' ∨ toAsciiLowercase c = 'c' ∨
          toAsciiLowercase c = 'd' ∨ toAsciiLowercase c = 'e' ∨
          toAsciiLowercase c = 'f' ∨ toAsciiLowercase c = 'l' ∨
          toAsciiLowercase c = 'm' ∨ toAsciiLowercase c = 'p' ∨
          toAsciiLowercase c = 'r' ∨ toAsciiLowercase c = 'w') := by
        simpa [validPermChar] using hc
      push_neg at hnot
      obtain ⟨h1, h2, h3, h4, h5, h6, h7, h8, h9, h10⟩ := hnot
      simp [MlstFilePermissions.tryFromChars, h1, h2, h3, h4, h5, h6, h7,
        h8, h9, h10]

/-- Claim C7: a permission-fact string of valid letters (any case, order,
multiplicity) decodes to exactly the booleans of the letters present;
any other character yields a syntax error; the empty string decodes to
all-false. -/
theorem try_from_perm_characterization (s : List Char) :
    ((∀ c ∈ s, validPermChar c = true) →
      MlstFilePermissions.try_from s = .ok (permsFrom {} s)) ∧
    ((∃ c ∈ s, validPermChar c = false) →
      MlstFilePermissions.try_from s = .error .SyntaxError) ∧
    MlstFilePermissions.try_from ([] : List Char) = .ok {} := by
  refine ⟨fun h => tryFromChars_valid s {} h,
    fun h => tryFromChars_invalid s {} h, rfl⟩

/-- Witness for claim C7: `"RW"` (upper case, order irrelevant) sets read
and write only; `"z"` is a syntax error. -/
theorem try_from_perm_witness :
    MlstFilePermissions.try_from ("RW".toList) =
      .ok { read := true, write := true } ∧
    MlstFilePermissions.try_from ("z".toList) = .error .SyntaxError := by
  refine ⟨((try_from_perm_characterization ("RW".toList)).1 (by decide)).trans (by decide), ?_⟩
  exact (try_from_perm_characterization ("z".toList)).2.1 ⟨'z', by decide, by decide⟩

/-- Claim C5: a successful fact-line parse yields a non-empty name and
takes its type from a dispatched `type` fact; when the scan completes but
no `type` fact was set, or the remaining filename is empty, the parse
fails with a syntax error. -/
theorem parse_mlst_line_invariants (line : List Char) :
    (∀ item, parse_mlst_line line = .ok item →
      item.name ≠ [] ∧
      ∃ acc rest, scanFacts line (.nameSt []) {} = .ok (acc, rest) ∧
        acc.ty = some item.ty ∧ item.name = rest) ∧
    (∀ acc rest, scanFacts line (.nameSt []) {} = .ok (acc, rest) →
      (acc.ty = none → parse_mlst_line line = .err .SyntaxError) ∧
      (rest = [] → parse_mlst_line line = .err .SyntaxError)) := by
  constructor
  · intro item h
    unfold parse_mlst_line at h
    rcases hs : scanFacts line (.nameSt []) {} with ⟨acc, rest⟩ | e | _ <;>
      rw [hs] at h
    · by_cases hrest : rest = []
      · simp [hrest] at h
      · rcases hty : acc.ty with _ | t <;> simp [hrest, hty] at h
        obtain rfl := h.symm
        exact ⟨hrest, acc, rest, rfl, by rw [hty], rfl⟩
    · cases h
    · cases h
  · intro acc rest hs
    constructor
    · intro hty
      unfold parse_mlst_line
      rw [hs]
      by_cases hrest : rest = [] <;> simp [hrest, hty]
    · intro hrest
      unfold parse_mlst_line
      rw [hs]
      simp [hrest]

/-- Witness for claim C5: a line with facts but no `type` fact, and a
line with a `type` fact but an empty filename, both fail with a syntax
error; a well-formed line satisfies the name/type invariants. -/
theorem parse_mlst_line_invariants_witness :
    parse_mlst_line ("size=5; f".toList) = .err .SyntaxError ∧
    parse_mlst_line ("type=file;".toList) = .err .SyntaxError ∧
    ("f".toList : List Char) ≠ [] := by
  refine ⟨?_, ?_, by decide⟩
  · exact ((parse_mlst_line_invariants ("size=5; f".toList)).2
      { size := some 5 } ("f".toList) (by decide)).1 rfl
  · exact ((parse_mlst_line_invariants ("type=file;".toList)).2
      { ty := some .File } [] (by decide)).2 rfl

theorem assocLookup_insert (m : List (List Char × List Char))
    (k v : List Char) : assocLookup k (assocInsert m k v) = some v := by
  induction m with
  | nil => simp [assocInsert, assocLookup]
  | cons kv rest ih =>
    obtain ⟨k', v'⟩ := kv
    by_cases hk : k' = k <;> simp [assocInsert, assocLookup, hk, ih]

theorem dispatch_size (n v : List Char) (acc r : MlstAcc)
    (hk : MlstFact.from n = .Size) (h : dispatchFact n v acc = .ok r) :
    r.size = parseUnsignedRadix 10 (2 ^ 64) v := by
  unfold dispatchFact at h
  rw [hk] at h
  rcases hp : parseUnsignedRadix 10 (2 ^ 64) v with _ | k <;> rw [hp] at h
  · cases h
  · cases h; rfl

theorem dispatch_modify (n v : List Char) (acc r : MlstAcc)
    (hk : MlstFact.from n = .Modify) (h : dispatchFact n v acc = .ok r) :
    ∃ dt, parse_mlst_date v = .ok dt ∧ r.modify = some dt := by
  unfold dispatchFact at h
  rw [hk] at h
  rcases hp : parse_mlst_date v with dt | _ | _ <;> rw [hp] at h
  · cases h; exact ⟨dt, rfl, rfl⟩
  · cases h
  · cases h

theorem dispatch_create (n v : List Char) (acc r : MlstAcc)
    (hk : MlstFact.from n = .Create) (h : dispatchFact n v acc = .ok r) :
    ∃ dt, parse_mlst_date v = .ok dt ∧ r.create = some dt := by
  unfold dispatchFact at h
  rw [hk] at h
  rcases hp : parse_mlst_date v with dt | _ | _ <;> rw [hp] at h
  · cases h; exact ⟨dt, rfl, rfl⟩
  · cases h
  · cases h

theorem dispatch_ty (n v : List Char) (acc r : MlstAcc)
    (hk : MlstFact.from n = .Ty) (h : dispatchFact n v acc = .ok r) :
    ∃ t, FtpItemType.try_from v = .ok t ∧ r.ty = some t := by
  unfold dispatchFact at h
  rw [hk] at h
  rcases hp : FtpItemType.try_from v with e | t <;> rw [hp] at h
  · cases h
  · cases h; exact ⟨t, rfl, rfl⟩

theorem dispatch_perm (n v : List Char) (acc r : MlstAcc)
    (hk : MlstFact.from n = .Perm) (h : dispatchFact n v acc = .ok r) :
    ∃ p, MlstFilePermissions.try_from v = .ok p ∧ r.perm = some p := by
  unfold dispatchFact at h
  rw [hk] at h
  rcases hp : MlstFilePermissions.try_from v with e | p <;> rw [hp] at h
  · cases h
  · cases h; exact ⟨p, rfl, rfl⟩

theorem dispatch_unix_owner (n v : List Char) (acc r : MlstAcc)
    (hk : MlstFact.from n = .UnixOwner) (h : dispatchFact n v acc = .ok r) :
    r.unix_owner = parseUnsignedRadix 10 (2 ^ 32) v := by
  unfold dispatchFact at h
  rw [hk] at h
  rcases hp : parseUnsignedRadix 10 (2 ^ 32) v with _ | k <;> rw [hp] at h
  · cases h
  · cases h; rfl

theorem dispatch_unix_group (n v : List Char) (acc r : MlstAcc)
    (hk : MlstFact.from n = .UnixGroup) (h : dispatchFact n v acc = .ok r) :
    r.unix_group = parseUnsignedRadix 10 (2 ^ 32) v := by
  unfold dispatchFact at h
  rw [hk] at h
  rcases hp : parseUnsignedRadix 10 (2 ^ 32) v with _ | k <;> rw [hp] at h
  · cases h
  · cases h; rfl

theorem dispatch_unix_mode (n v : List Char) (acc r : MlstAcc)
    (hk : MlstFact.from n = .UnixMode) (h : dispatchFact n v acc = .ok r) :
    r.unix_mode = parseUnsignedRadix 8 (2 ^ 16) v := by
  unfold dispatchFact at h
  rw [hk] at h
  rcases hp : parseUnsignedRadix 8 (2 ^ 16) v with _ | k <;> rw [hp] at h
  · cases h
  · cases h; rfl

theorem dispatch_stored (n v : List Char) (acc r : MlstAcc)
    (h : dispatchFact n v acc = .ok r) :
    (MlstFact.from n = .Unique → r.unique = some v) ∧
    (MlstFact.from n = .Lang → r.lang = some v) ∧
    (MlstFact.from n = .MediaType → r.media_type = some v) ∧
    (MlstFact.from n = .Charset → r.charset = some v) ∧
    (MlstFact.from n = .UnixOwnerName → r.unix_ownername = some v) ∧
    (MlstFact.from n = .UnixGroupName → r.unix_groupname = some v) := by
  unfold dispatchFact at h
  refine ⟨?_, ?_, ?_, ?_, ?_, ?_⟩ <;> intro hk <;> rw [hk] at h <;>
    cases h <;> rfl

theorem dispatch_other (n v : List Char) (acc r : MlstAcc) (nm : List Char)
    (hk : MlstFact.from n = .Other nm) (h : dispatchFact n v acc = .ok r) :
    ∃ m, r.others = some m ∧ assocLookup nm m = some v := by
  unfold dispatchFact at h
  rw [hk] at h
  cases h
  exact ⟨_, rfl, assocLookup_insert _ nm v⟩

/-- Claim C10: whenever a completed `name=value` pair is dispatched, the
field selected by the (case-folded) fact kind is set to that pair's
parsed value regardless of what any earlier pair stored there — so for
recognized facts and unrecognized `Other` facts alike, the last
occurrence on a line wins. -/
theorem dispatchFact_last_wins (n v : List Char) (acc r : MlstAcc)
    (h : dispatchFact n v acc = .ok r) :
    (MlstFact.from n = .Size → r.size = parseUnsignedRadix 10 (2 ^ 64) v) ∧
    (MlstFact.from n = .Modify →
      ∃ dt, parse_mlst_date v = .ok dt ∧ r.modify = some dt) ∧
    (MlstFact.from n = .Create →
      ∃ dt, parse_mlst_date v = .ok dt ∧ r.create = some dt) ∧
    (MlstFact.from n = .Ty →
      ∃ t, FtpItemType.try_from v = .ok t ∧ r.ty = some t) ∧
    (MlstFact.from n = .Unique → r.unique = some v) ∧
    (MlstFact.from n = .Perm →
      ∃ p, MlstFilePermissions.try_from v = .ok p ∧ r.perm = some p) ∧
    (MlstFact.from n = .Lang → r.lang = some v) ∧
    (MlstFact.from n = .MediaType → r.media_type = some v) ∧
    (MlstFact.from n = .Charset → r.charset = some v) ∧
    (MlstFact.from n = .UnixOwner →
      r.unix_owner = parseUnsignedRadix 10 (2 ^ 32) v) ∧
    (MlstFact.from n = .UnixOwnerName → r.unix_ownername = some v) ∧
    (MlstFact.from n = .UnixGroup →
      r.unix_group = parseUnsignedRadix 10 (2 ^ 32) v) ∧
    (MlstFact.from n = .UnixGroupName → r.unix_groupname = some v) ∧
    (MlstFact.from n = .UnixMode →
      r.unix_mode = parseUnsignedRadix 8 (2 ^ 16) v) ∧
    (∀ nm, MlstFact.from n = .Other nm →
      ∃ m, r.others = some m ∧ assocLookup nm m = some v) := by
  exact ⟨fun hk => dispatch_size n v acc r hk h,
    fun hk => dispatch_modify n v acc r hk h,
    fun hk => dispatch_create n v acc r hk h,
    fun hk => dispatch_ty n v acc r hk h,
    fun hk => (dispatch_stored n v acc r h).1 hk,
    fun hk => dispatch_perm n v acc r hk h,
    fun hk => (dispatch_stored n v acc r h).2.1 hk,
    fun hk => (dispatch_stored n v acc r h).2.2.1 hk,
    fun hk => (dispatch_stored n v acc r h).2.2.2.1 hk,
    fun hk => dispatch_unix_owner n v acc r hk h,
    fun hk => (dispatch_stored n v acc r h).2.2.2.2.1 hk,
    fun hk => dispatch_unix_group n v acc r hk h,
    fun hk => (dispatch_stored n v acc r h).2.2.2.2.2 hk,
    fun hk => dispatch_unix_mode n v acc r hk h,
    fun nm hk => dispatch_other n v acc r nm hk h⟩

/-- Witness for claim C10: dispatching a second `SIZE` pair (note the
case folding) over an accumulator already holding size 1 stores the new
value 2; the end-to-end parse of a line with duplicated recognized and
unrecognized facts keeps the last occurrences. -/
theorem dispatchFact_last_wins_witness :
    dispatchFact ("SIZE".toList) ("2".toList) { size := some 1 } =
      .ok { size := some 2 } ∧
    ({ size := some 2 } : MlstAcc).size =
      parseUnsignedRadix 10 (2 ^ 64) ("2".toList) ∧
    parse_mlst_line ("size=1;size=2;type=dir;type=file;x=1;x=2; f".toList) =
      .ok { name := "f".toList, ty := .File, size := some 2,
            modified := none, created := none, unique := none, perm := none,
            lang := none, media_type := none, charset := none,
            unix_owner := none, unix_ownername := none, unix_group := none,
            unix_groupname := none, unix_mode := none,
            others := some [("x".toList, "2".toList)] } := by
  refine ⟨by decide, ?_, by decide⟩
  exact (dispatchFact_last_wins ("SIZE".toList) ("2".toList)
    { size := some 1 } { size := some 2 } (by decide)).1 (by decide)

/-- Counterexample to claim C3: a `BadSize` line and an `InvalidDate`
line produce identical listing results (`FtpError::BadResponse`), so the
typed parse error is not distinguishable by the caller of the listing
operation. -/
theorem list_mlsd_error_not_distinguishable :
    parse_mlst_line ("type=file;size=x; a".toList) = .err .BadSize ∧
    parse_mlst_line ("type=file;modify=x; a".toList) = .err .InvalidDate ∧
    (list_mlsd true (mlsdOracle [("type=file;size=x; a".toList)])).result =
      .err .BadResponse ∧
    (list_mlsd true (mlsdOracle [("type=file;modify=x; a".toList)])).result =
      .err .BadResponse ∧
    list_mlsd true (mlsdOracle [("type=file;size=x; a".toList)]) =
      list_mlsd true (mlsdOracle [("type=file;modify=x; a".toList)]) := by
  decide

/-- Claim C3 (amended): a line that fails to parse aborts the whole
listing fail-fast with `FtpError::BadResponse` (the typed parse error is
collapsed, not propagated unchanged), and the listing's reconnect
behaviour is exactly that of the line fetch — parsing never adds a
reconnect. -/
theorem list_mlsd_failfast_no_reconnect :
    (∀ (pre post : List (List Char)) (bad : List Char) (e : ParseError)
        (acc : FtpList),
      (∀ x ∈ pre, ∃ it, parse_mlst_line x = .ok it) →
      parse_mlst_line bad = .err e →
      listFoldAux (pre ++ bad :: post) acc = .err .BadResponse) ∧
    (∀ (connected : Bool) (o : FtpOracle FtpError (List (List Char))),
      (list_mlsd connected o).reconnectCalls =
        (ftp_exec connected o).reconnectCalls ∧
      (list_mlsd connected o).retryReconnects =
        (ftp_exec connected o).retryReconnects) := by
  constructor
  · intro pre post bad e acc hpre hbad
    induction pre generalizing acc with
    | nil =>
      simp only [List.nil_append, listFoldAux]
      rw [hbad]
    | cons x pre' ih =>
      obtain ⟨it, hit⟩ := hpre x (List.mem_cons_self x pre')
      have hpre' : ∀ y ∈ pre', ∃ it', parse_mlst_line y = .ok it' :=
        fun y hy => hpre y (List.mem_cons_of_mem x hy)
      simp only [List.cons_append, listFoldAux]
      rw [hit]
      simp only []
      rcases hty : it.ty <;> simp only [hty] <;> exact ih _ hpre'
  · intro connected o
    unfold list_mlsd
    rcases h : (ftp_exec connected o).result with e | lines <;> simp [h]

/-- Witness for claim C3 (amended) at concrete lines and a concrete
collaborator. -/
theorem list_mlsd_failfast_witness :
    listFoldAux [("type=file;size=x; a".toList), ("type=file; b".toList)]
      {} = .err .BadResponse ∧
    (list_mlsd true (mlsdOracle [("type=file;size=x; a".toList)])).reconnectCalls =
      (ftp_exec true (mlsdOracle [("type=file;size=x; a".toList)])).reconnectCalls := by
  refine ⟨?_, ?_⟩
  · exact list_mlsd_failfast_no_reconnect.1 [] [("type=file; b".toList)]
      ("type=file;size=x; a".toList) .BadSize {} (by simp) (by decide)
  · exact (list_mlsd_failfast_no_reconnect.2 true
      (mlsdOracle [("type=file;size=x; a".toList)])).1

theorem finishConnect_fields (us hr : Bool) (c : ReconnectCall F)
    (s2 : ClientState F) :
    (finishConnect us hr c s2).features = s2.features ∧
    (finishConnect us hr c s2).has_feat = s2.has_feat := by
  unfold finishConnect
  split
  · exact ⟨rfl, rfl⟩
  · split
    · exact ⟨rfl, rfl⟩
    · split <;> exact ⟨rfl, rfl⟩

theorem reconnectStep_cached (u us hr : Bool) (c : ReconnectCall F)
    (s : ClientState F) (h : s.has_feat = true) :
    (reconnectStep u us hr c s).2.1 = false ∧
    (reconnectStep u us hr c s).2.2 = false ∧
    (reconnectStep u us hr c s).1.features = s.features ∧
    (reconnectStep u us hr c s).1.has_feat = true := by
  obtain ⟨ftpv, sf, feats⟩ := s
  have h' : sf = true := h
  subst h'
  unfold reconnectStep
  by_cases hco : c.connectOk = true
  · simp only [hco, Bool.not_true, Bool.false_eq_true, if_false,
      Bool.false_and]
    exact ⟨trivial, trivial, (finishConnect_fields us hr c _).1,
      (finishConnect_fields us hr c _).2.trans rfl⟩
  · simp only [Bool.not_eq_true] at hco
    simp [hco]

theorem reconnectStep_success_caches (u us hr : Bool) (c : ReconnectCall F)
    (s : ClientState F) (h : (reconnectStep u us hr c s).2.2 = true) :
    (reconnectStep u us hr c s).1.has_feat = true := by
  obtain ⟨ftpv, sf, feats⟩ := s
  unfold reconnectStep at *
  by_cases hco : c.connectOk = true
  · by_cases hf : (!sf && u) = true
    · rcases hfr : c.featResult with _ | f
      · simp [hco, hf, hfr] at h
      · simp only [hco, hf, hfr, Bool.not_true, Bool.false_eq_true,
          if_false, if_true]
        exact ((finishConnect_fields us hr c _).2).trans rfl
    · simp [hco, hf] at h
  · simp only [Bool.not_eq_true] at hco
    simp [hco] at h

/-- Claim C4 (amended): over any sequence of reconnect transitions, FEAT
is successfully negotiated and cached at most once; once `has_feat` is
cached, no later reconnect issues FEAT, and the cached feature set is
never changed or invalidated. -/
theorem feat_negotiated_once (u us hr : Bool)
    (calls : List (ReconnectCall F)) (s : ClientState F) :
    (runReconnects u us hr calls s).2.2 ≤ 1 ∧
    (s.has_feat = true →
      (runReconnects u us hr calls s).2.1 = 0 ∧
      (runReconnects u us hr calls s).2.2 = 0 ∧
      (runReconnects u us hr calls s).1.features = s.features ∧
      (runReconnects u us hr calls s).1.has_feat = true) := by
  induction calls generalizing s with
  | nil => exact ⟨Nat.zero_le 1, fun h => ⟨rfl, rfl, rfl, h⟩⟩
  | cons c rest ih =>
    have hrun1 : (runReconnects u us hr (c :: rest) s).2.1 =
        (if (reconnectStep u us hr c s).2.1 then 1 else 0) +
          (runReconnects u us hr rest (reconnectStep u us hr c s).1).2.1 := rfl
    have hrun2 : (runReconnects u us hr (c :: rest) s).2.2 =
        (if (reconnectStep u us hr c s).2.2 then 1 else 0) +
          (runReconnects u us hr rest (reconnectStep u us hr c s).1).2.2 := rfl
    have hrunS : (runReconnects u us hr (c :: rest) s).1 =
        (runReconnects u us hr rest (reconnectStep u us hr c s).1).1 := rfl
    rcases hsf : s.has_feat with _ | _
    · constructor
      · rcases hs22 : (reconnectStep u us hr c s).2.2 with _ | _
        · rw [hrun2, hs22]
          simpa using (ih (reconnectStep u us hr c s).1).1
        · have hcache := reconnectStep_success_caches u us hr c s hs22
          obtain ⟨_, hn2, _, _⟩ := (ih (reconnectStep u us hr c s).1).2 hcache
          rw [hrun2, hs22, hn2]
          simp
      · intro h
        simp [hsf] at h
    · obtain ⟨hc1, hc2, hc3, hc4⟩ := reconnectStep_cached u us hr c s hsf
      obtain ⟨hn1, hn2, hn3, hn4⟩ :=
        (ih (reconnectStep u us hr c s).1).2 hc4
      constructor
      · rw [hrun2, hc2, hn2]
        simp
      · intro _
        refine ⟨?_, ?_, ?_, ?_⟩
        · rw [hrun1, hc1, hn1]
          simp
        · rw [hrun2, hc2, hn2]
          simp
        · rw [hrunS, hn3, hc3]
        · rw [hrunS, hn4]

/-- Counterexample to claim C4: with FEAT enabled, when the first
reconnect's FEAT command fails, a second reconnect issues FEAT again —
the FEAT command is issued twice over one controller lifetime. -/
theorem feat_issued_twice :
    (runReconnects true false false [featFailCall, featOkCall]
      (clientNew 0)).2.1 = 2 := by
  decide

/-- Witness for claim C4 (amended): a controller with a cached feature
set performs no FEAT issue on a further reconnect and keeps its cached
features; a fresh controller's successful negotiations stay ≤ 1 even
after a failed FEAT attempt. -/
theorem feat_negotiated_once_witness :
    (runReconnects true false false [featOkCall]
      (⟨false, true, 5⟩ : ClientState Nat)).2.1 = 0 ∧
    (runReconnects true false false [featOkCall]
      (⟨false, true, 5⟩ : ClientState Nat)).1.features = 5 ∧
    (runReconnects true false false [featFailCall, featOkCall]
      (clientNew (0 : Nat))).2.2 ≤ 1 := by
  have h := feat_negotiated_once true false false [featOkCall]
    (⟨false, true, 5⟩ : ClientState Nat)
  have h2 := feat_negotiated_once true false false [featFailCall, featOkCall]
    (clientNew (0 : Nat))
  exact ⟨(h.2 rfl).1, ((h.2 rfl).2.2.1).trans rfl, h2.1⟩

theorem pack_bits_eq (r3 w3 x3 r2 w2 x2 r1 w1 x1 : Bool) :
    (((((if r3 then 1 else 0) <<< 2) ||| ((if w3 then 1 else 0) <<< 1) |||
        (if x3 then 1 else 0)) <<< 6) |||
      ((((if r2 then 1 else 0) <<< 2) ||| ((if w2 then 1 else 0) <<< 1) |||
        (if x2 then 1 else 0)) <<< 3) |||
      (((if r1 then 1 else 0) <<< 2) ||| ((if w1 then 1 else 0) <<< 1) |||
        (if x1 then 1 else 0)) : Nat) =
    ((if r3 then 4 else 0) + (if w3 then 2 else 0) + (if x3 then 1 else 0)) * 64 +
    ((if r2 then 4 else 0) + (if w2 then 2 else 0) + (if x2 then 1 else 0)) * 8 +
    ((if r1 then 4 else 0) + (if w1 then 2 else 0) + (if x1 then 1 else 0)) := by
  revert r3 w3 x3 r2 w2 x2 r1 w1 x1
  decide

/-- Claim C9: the long-listing-to-FileEntry conversion always produces a
numeric unix mode, packed with the owner read-write-execute bits lowest,
group bits in the middle, others bits highest, and read as the high bit
inside each 3-bit group. -/
theorem list_to_ftp_mode_packing (T : Type) (tm : TimeModel T)
    (f : ListFile T) :
    (list_to_ftp tm f).unix_mode =
      some (((if f.can_read .Others then 4 else 0) +
              (if f.can_write .Others then 2 else 0) +
              (if f.can_execute .Others then 1 else 0)) * 64 +
            ((if f.can_read .Group then 4 else 0) +
              (if f.can_write .Group then 2 else 0) +
              (if f.can_execute .Group then 1 else 0)) * 8 +
            ((if f.can_read .Owner then 4 else 0) +
              (if f.can_write .Owner then 2 else 0) +
              (if f.can_execute .Owner then 1 else 0))) := by
  refine congrArg some ?_
  show (f.whoBits .Others <<< 6) ||| (f.whoBits .Group <<< 3) |||
      f.whoBits .Owner = _
  unfold ListFile.whoBits
  exact pack_bits_eq _ _ _ _ _ _ _ _ _

/-- Claim C8: for a FileEntry with read=true, write=false, list=true and
size and modified present, the long-listing round trip broadcasts one
pex value to owner/group/others, preserves the directory flag, size and
modified time exactly, recovers the permission triple
read/write/list = true/false/true with identical owner/group/other mode
bits (0o555 = 365), and reproduces none of the fields the long-listing
format cannot carry. -/
theorem ftp_list_round_trip (T : Type) (tm : TimeModel T)
    (hrt : ∀ t, tm.toNaive (tm.toSys t) = t)
    (file : FtpItem) (p : MlstFilePermissions) (s : Nat) (m : NaiveDateTime)
    (hp : file.perm = some p) (hr : p.read = true) (hw : p.write = false)
    (hl : p.list = true) (hs : file.size = some s)
    (hm : file.modified = some m) :
    (ftp_to_list tm file).pex.1 = (ftp_to_list tm file).pex.2.1 ∧
    (ftp_to_list tm file).pex.1 = (ftp_to_list tm file).pex.2.2 ∧
    (list_to_ftp tm (ftp_to_list tm file)).ty.is_dir = file.ty.is_dir ∧
    (list_to_ftp tm (ftp_to_list tm file)).size = some s ∧
    (list_to_ftp tm (ftp_to_list tm file)).modified = some m ∧
    (list_to_ftp tm (ftp_to_list tm file)).perm =
      some { read := true, write := false, list := true } ∧
    (list_to_ftp tm (ftp_to_list tm file)).unix_mode = some 365 ∧
    (list_to_ftp tm (ftp_to_list tm file)).created = none ∧
    (list_to_ftp tm (ftp_to_list tm file)).unique = none ∧
    (list_to_ftp tm (ftp_to_list tm file)).lang = none ∧
    (list_to_ftp tm (ftp_to_list tm file)).charset = none ∧
    (list_to_ftp tm (ftp_to_list tm file)).media_type = none ∧
    (list_to_ftp tm (ftp_to_list tm file)).others = none := by
  have hpex : p.as_pex = 5 := by
    simp [MlstFilePermissions.as_pex, hr, hw, hl]
  have hpx : (ftp_to_list tm file).pex = (5, 5, 5) := by
    simp [ftp_to_list, hp, hpex]
  have hty : (list_to_ftp tm (ftp_to_list tm file)).ty =
      (if file.ty.is_dir then
        (if file.name = ".".toList then FtpItemType.CurrentDir
         else if file.name = "..".toList then FtpItemType.ParentDir
         else FtpItemType.Dir)
       else FtpItemType.File) := rfl
  refine ⟨by rw [hpx], by rw [hpx], ?_, ?_, ?_, ?_, ?_, rfl, rfl, rfl, rfl,
    rfl, rfl⟩
  · rw [hty]
    rcases hd : file.ty.is_dir with _ | _
    · simp [FtpItemType.is_dir]
    · simp only [if_true]
      split
      · simp [FtpItemType.is_dir]
      · split <;> simp [FtpItemType.is_dir]
  · have h1 : (list_to_ftp tm (ftp_to_list tm file)).size =
        some (file.size.getD 0) := rfl
    rw [h1, hs]
    rfl
  · have h1 : (list_to_ftp tm (ftp_to_list tm file)).modified =
        some (tm.toNaive (tm.toSys (file.modified.getD epochNaive))) := rfl
    rw [h1, hm]
    exact congrArg some (hrt m)
  · have h1 : (list_to_ftp tm (ftp_to_list tm file)).perm =
        some { read := (ftp_to_list tm file).can_read .Owner,
               write := (ftp_to_list tm file).can_write .Owner,
               list := (ftp_to_list tm file).can_execute .Owner } := rfl
    rw [h1]
    simp [ListFile.can_read, ListFile.can_write, ListFile.can_execute,
      ListFile.pexOf, hpx]
    decide
  · have h1 : (list_to_ftp tm (ftp_to_list tm file)).unix_mode =
        some (ftp_to_list tm file).modeBits := rfl
    rw [h1]
    simp [ListFile.modeBits, ListFile.whoBits, ListFile.can_read,
      ListFile.can_write, ListFile.can_execute, ListFile.pexOf, hpx]
    decide

/-- Witness for claim C8 at the trivial time model and `c8File`. -/
theorem ftp_list_round_trip_witness :
    (list_to_ftp tmId (ftp_to_list tmId c8File)).size = some 9 ∧
    (list_to_ftp tmId (ftp_to_list tmId c8File)).modified =
      some ⟨2023, 1, 1, 0, 0, 0, 0⟩ ∧
    (list_to_ftp tmId (ftp_to_list tmId c8File)).unix_mode = some 365 := by
  have h := ftp_list_round_trip NaiveDateTime tmId (fun t => rfl) c8File
    { read := true, list := true } 9 ⟨2023, 1, 1, 0, 0, 0, 0⟩
    rfl rfl rfl rfl rfl rfl
  exact ⟨h.2.2.2.1, h.2.2.2.2.1, h.2.2.2.2.2.2.1⟩
